import Mathlib

/-!
Shallow embedding of `src/main.ts` of the `droid-apikey` repository: a Deno
service that polls a usage-metering API for a set of stored credentials,
aggregates per-key usage, caches one aggregate snapshot, and serves it over
HTTP. Asynchronous effects are made explicit: the remote endpoint is an
oracle parameter, wall-clock strings are parameters, and the `ServerState`
singleton is explicit state threaded through a small event semantics.
-/

namespace DroidApikey

/-! ## Data model (Type Definitions section of `main.ts`) -/

/-- One stored credential: `interface ApiKey` in `main.ts`. -/
structure ApiKey where
  id : String
  key : String
deriving DecidableEq

/-- Success variant of a fetch: `interface ApiUsageData`. The field
`ratioUsed` embeds the source field named `usedRatio` (renamed here only
because of lexical constraints of this development). JS numbers are
modelled as `Int`. -/
structure ApiUsageData where
  id : String
  key : String
  startDate : String
  endDate : String
  orgTotalTokensUsed : Int
  totalAllowance : Int
  ratioUsed : Int
deriving DecidableEq

/-- Failure variant of a fetch: `interface ApiErrorData`. -/
structure ApiErrorData where
  id : String
  key : String
  error : String
deriving DecidableEq

/-- `type ApiKeyResult = ApiUsageData | ApiErrorData`, as a tagged sum.
In JS the tag is the presence of the `error` field. -/
inductive ApiKeyResult where
  | usage (u : ApiUsageData)
  | error (e : ApiErrorData)
deriving DecidableEq

/-- `interface UsageTotals` in `main.ts`. -/
structure UsageTotals where
  total_orgTotalTokensUsed : Int
  total_totalAllowance : Int
  totalRemaining : Int
deriving DecidableEq

/-- `interface AggregatedResponse` in `main.ts` (the aggregate snapshot). -/
structure AggregatedResponse where
  update_time : String
  total_count : Nat
  totals : UsageTotals
  data : List ApiKeyResult
deriving DecidableEq

/-- The `standard` sub-object of the remote JSON body (`interface
ApiResponse`); each numeric field may be absent (the source defaults each
with `|| 0`). The field `ratioUsed` embeds the source field `usedRatio`. -/
structure StandardUsageJson where
  orgTotalTokensUsed : Option Int
  totalAllowance : Option Int
  ratioUsed : Option Int
deriving DecidableEq

/-- The `usage` sub-object of the remote JSON body; `startDate` / `endDate`
are epoch-millisecond timestamps that may be absent, and `standard` may be
absent (the source checks `usage?.standard`). -/
structure UsageJson where
  startDate : Option Int
  endDate : Option Int
  standard : Option StandardUsageJson
deriving DecidableEq

/-- The whole remote JSON body (`interface ApiResponse`): the `usage`
sub-object may be absent. -/
structure ApiResponse where
  usage : Option UsageJson
deriving DecidableEq

/-! ## Configuration constants (the `CONFIG` object) -/

/-- `CONFIG.KEY_MASK_PREFIX_LENGTH`. -/
def KEY_MASK_PREFIX_LENGTH : Nat := 4

/-- `CONFIG.KEY_MASK_SUFFIX_LENGTH`. -/
def KEY_MASK_SUFFIX_LENGTH : Nat := 4

/-- `CONFIG.AUTO_REFRESH_INTERVAL_SECONDS`. -/
def AUTO_REFRESH_INTERVAL_SECONDS : Nat := 60

/-! ## Utility functions -/

/-- `maskApiKey` from `main.ts`: keys of length at most prefix+suffix keep
only the first `KEY_MASK_PREFIX_LENGTH` characters followed by `...`;
longer keys additionally keep the last `KEY_MASK_SUFFIX_LENGTH`
characters. `key.substring(0, n)` is the first `n` characters and
`key.substring(key.length - n)` the last `n`. -/
def maskApiKey (key : String) : String :=
  if key.length ≤ KEY_MASK_PREFIX_LENGTH + KEY_MASK_SUFFIX_LENGTH then
    String.mk (key.data.take KEY_MASK_PREFIX_LENGTH) ++ "..."
  else
    String.mk (key.data.take KEY_MASK_PREFIX_LENGTH) ++ "..." ++
      String.mk (key.data.drop (key.length - KEY_MASK_SUFFIX_LENGTH))

/-- Day number (days since the Unix epoch, floored) of an epoch-millisecond
timestamp, as in the ECMAScript `Day(t) = floor(t / msPerDay)`. -/
def daysFromMillis (t : Int) : Int := t.fdiv 86400000

/-- Proleptic-Gregorian civil date `(year, month, day)` of a day number
(days since 1970-01-01); the standard civil-from-days computation, which is
what `Date.prototype.toISOString` exposes in its date part. -/
def civilFromDays (z : Int) : Int × Nat × Nat :=
  let zs : Int := z + 719468
  let era : Int := zs.fdiv 146097
  let doe : Nat := (zs.fmod 146097).toNat
  let yoe : Nat := (doe - doe / 1460 + doe / 36524 - doe / 146096) / 365
  let y : Int := (yoe : Int) + era * 400
  let doy : Nat := doe - (365 * yoe + yoe / 4 - yoe / 100)
  let mp : Nat := (5 * doy + 2) / 153
  let d : Nat := doy - (153 * mp + 2) / 5 + 1
  let m : Nat := if mp < 10 then mp + 3 else mp - 9
  (if m ≤ 2 then y + 1 else y, m, d)

/-- Left-pads a numeral with zeros to width `w`. -/
def padNum (n : Nat) (w : Nat) : String :=
  let s := toString n
  String.mk (List.replicate (w - s.length) '0') ++ s

/-- Year field of an ISO-8601 date string as produced by `toISOString`:
four digits for years 0..9999, otherwise the expanded six-digit form with
an explicit sign. -/
def isoYear (y : Int) : String :=
  if y < 0 then "-" ++ padNum y.natAbs 6
  else if 9999 < y then "+" ++ padNum y.toNat 6
  else padNum y.toNat 4

/-- The date part of `new Date(t).toISOString()`, i.e. the text before the
`T` separator. -/
def isoDateOfMillis (t : Int) : String :=
  let c := civilFromDays (daysFromMillis t)
  isoYear c.1 ++ "-" ++ padNum c.2.1 2 ++ "-" ++ padNum c.2.2 2

/-- `formatDate` from `main.ts`. A missing timestamp (`null`, `undefined`)
is falsy and distinct from `0`, yielding `N/A`; a timestamp outside the
ECMAScript time range makes `toISOString` throw, caught as
`Invalid Date`; otherwise the ISO date part is returned. -/
def formatDate (timestamp : Option Int) : String :=
  match timestamp with
  | none => "N/A"
  | some t => if t.natAbs ≤ 8640000000000000 then isoDateOfMillis t else "Invalid Date"

/-! ## Server state and caching (`class ServerState`) -/

/-- `class ServerState` in `main.ts`: three private mutable fields. -/
structure ServerState where
  cachedData : Option AggregatedResponse
  lastError : Option String
  isUpdating : Bool
deriving DecidableEq

/-- The field initializers of `ServerState`: no data, no error, idle. -/
def ServerState.init : ServerState := ⟨none, none, false⟩

/-- `ServerState.updateCache`: stores the new data, clears the error,
clears the updating flag. -/
def ServerState.updateCache (s : ServerState) (data : AggregatedResponse) : ServerState :=
  { s with cachedData := some data, lastError := none, isUpdating := false }

/-- `ServerState.setError`: records the error message and clears the
updating flag; `cachedData` is left untouched. -/
def ServerState.setError (s : ServerState) (errorMessage : String) : ServerState :=
  { s with lastError := some errorMessage, isUpdating := false }

/-- `ServerState.startUpdate`: raises the updating flag. -/
def ServerState.startUpdate (s : ServerState) : ServerState :=
  { s with isUpdating := true }

/-! ## HTTP responses -/

/-- JSON bodies produced by the route handlers modelled here. -/
inductive ResponseBody where
  | json (d : AggregatedResponse)
  | jsonError (msg : String)
  | batchDeleteResult (success : Bool) (deleted : Nat)
  | batchImportResult (success : Bool) (added : Nat) (skipped : Nat)
deriving DecidableEq

/-- An HTTP response: status code plus JSON body. -/
structure HttpResponse where
  status : Nat
  body : ResponseBody
deriving DecidableEq

/-- `createJsonResponse` from `main.ts`, specialized to snapshot bodies. -/
def createJsonResponse (data : AggregatedResponse) (status : Nat := 200) : HttpResponse :=
  ⟨status, .json data⟩

/-- `createErrorResponse` from `main.ts`: body `{error: message}`. -/
def createErrorResponse (message : String) (status : Nat := 500) : HttpResponse :=
  ⟨status, .jsonError message⟩

/-- `handleGetData` from `main.ts`: serves the cached snapshot when one
exists, else the last error as 500, else 503 (updating or no data yet). -/
def handleGetData (serverState : ServerState) : HttpResponse :=
  match serverState.cachedData with
  | some cachedData => createJsonResponse cachedData
  | none =>
    match serverState.lastError with
    | some lastError => createErrorResponse lastError 500
    | none =>
      if serverState.isUpdating then
        createErrorResponse "数据正在更新中，请稍候..." 503
      else
        createErrorResponse "暂无数据，请稍后刷新。" 503

/-! ## Refresh lifecycle (`autoRefreshData`)

`autoRefreshData` checks `isCurrentlyUpdating` and returns at once when an
update is in flight; otherwise it calls `startUpdate`, runs one
fetch/aggregate pass (`getAggregatedData`), and on completion calls
`updateCache` on success or `setError` on failure. The check and
`startUpdate` happen before the first suspension point, so they are one
atomic step. We model the lifecycle as events acting on the pair of the
`ServerState` and a counter of fetch passes started. -/

/-- Events of the refresh lifecycle: a refresh trigger (startup call, timer
tick, or post-mutation fire-and-forget call), and completion of the
in-flight pass with success or failure. -/
inductive RefreshEvent where
  | trigger
  | success (data : AggregatedResponse)
  | failure (msg : String)

/-- One step of the refresh lifecycle on (state, number of fetch passes
started): a trigger while updating is the early `return` of
`autoRefreshData`; otherwise it starts an update and one fetch pass;
completions apply `updateCache` / `setError`. -/
def autoRefreshStep : ServerState × Nat → RefreshEvent → ServerState × Nat
  | (s, fetches), .trigger => if s.isUpdating then (s, fetches) else (s.startUpdate, fetches + 1)
  | (s, fetches), .success data => (s.updateCache data, fetches)
  | (s, fetches), .failure msg => (s.setError msg, fetches)

/-- Folds a sequence of refresh-lifecycle events over a starting state. -/
def runEvents (start : ServerState × Nat) (events : List RefreshEvent) : ServerState × Nat :=
  events.foldl autoRefreshStep start

/-! ## Batch import (`handleBatchImport`) -/

/-- Outcome of `handleBatchImport`: the two counters of the response body
and the keys written to the store, in store-write order. -/
structure BatchImportOutcome where
  added : Nat
  skipped : Nat
  addedKeys : List String
deriving DecidableEq

/-- Loop state of `handleBatchImport`: the `existingKeys` set (as a list),
the counters, and the keys written so far. -/
structure ImportState where
  existingKeys : List String
  added : Nat
  skipped : Nat
  addedKeys : List String

/-- One iteration of the `for (const item of items)` loop of
`handleBatchImport`. An item is `none` when it is not an object carrying a
`key` property (the `continue` with no counting); `some key` otherwise,
where the empty string models a falsy `key` (skipped without counting).
A key already in `existingKeys` bumps `skipped`; a new key is written to
the store, added to `existingKeys`, and bumps `added`. -/
def importStep (st : ImportState) (item : Option String) : ImportState :=
  match item with
  | none => st
  | some key =>
    if key = "" then st
    else if key ∈ st.existingKeys then { st with skipped := st.skipped + 1 }
    else
      { existingKeys := key :: st.existingKeys,
        added := st.added + 1,
        skipped := st.skipped,
        addedKeys := st.addedKeys ++ [key] }

/-- `handleBatchImport` from `main.ts`, as a function of the secrets
present in the store when the batch starts (`existingKeys` is initialized
from `getAllKeys()`) and of the batch items. -/
def handleBatchImport (existingAtStart : List String) (items : List (Option String)) :
    BatchImportOutcome :=
  let final := items.foldl importStep ⟨existingAtStart, 0, 0, []⟩
  ⟨final.added, final.skipped, final.addedKeys⟩

/-- The response of `handleBatchImport`: always 200 with the counters. -/
def batchImportResponse (existingAtStart : List String) (items : List (Option String)) :
    HttpResponse :=
  let out := handleBatchImport existingAtStart items
  ⟨200, .batchImportResult true out.added out.skipped⟩

/-! ## Batch delete (`handleBatchDeleteKeys`) -/

/-- The parsed request body of `POST /api/keys/batch-delete`: `ids` is
`none` when the body parses but carries no array `ids` field. -/
structure BatchDeleteRequest where
  ids : Option (List String)

/-- The `.catch(() => \x7b\x7d)` attached to each `deleteKey(id)` call:
any per-id failure is swallowed and the promise resolves. -/
def catchSwallow (r : Except String Unit) : Except String Unit :=
  match r with
  | .ok _ => .ok ()
  | .error _ => .ok ()

/-- Sequencing of `Promise.all`: the first rejection rejects the whole,
otherwise it resolves. -/
def sequenceAll : List (Except String Unit) → Except String Unit
  | [] => .ok ()
  | .error e :: _ => .error e
  | .ok _ :: rest => sequenceAll rest

/-- `handleBatchDeleteKeys` from `main.ts`. `body = none` is a JSON parse
failure (caught as 400); a missing or empty `ids` array is 400; otherwise
every id is deleted with per-id failures swallowed, and the response is
200 with `deleted` set to the number of ids in the request. The
`deleteOutcome` oracle gives each underlying `deleteKey` result. -/
def handleBatchDeleteKeys (deleteOutcome : String → Except String Unit)
    (body : Option BatchDeleteRequest) : HttpResponse :=
  match body with
  | none => createErrorResponse "Invalid JSON" 400
  | some req =>
    match req.ids with
    | none => createErrorResponse "ids array is required" 400
    | some ids =>
      if ids.length = 0 then createErrorResponse "ids array is required" 400
      else
        match sequenceAll (ids.map (fun i => catchSwallow (deleteOutcome i))) with
        | .error e => createErrorResponse e 400
        | .ok _ => ⟨200, .batchDeleteResult true ids.length⟩

/-! ## Batch scheduler (`batchProcess`) -/

/-- Observable trace of one `batchProcess` run: the results array, the
sizes of the chunks processed (in order), and the sleeps performed (one
entry of `delayMs` per inter-batch sleep, in order). -/
structure BatchTrace (R : Type) where
  results : List R
  chunkSizes : List Nat
  delays : List Nat
deriving DecidableEq

/-- `batchProcess` from `main.ts`: the loop `for (i = 0; i < items.length;
i += concurrency)` takes `items.slice(i, i + concurrency)` as the current
chunk, maps `processor` over it, appends the chunk results, and sleeps
`delayMs` when `i + concurrency < items.length` (i.e. when a further chunk
remains). Requires `0 < concurrency`, exactly as the source does for the
loop to terminate. -/
def batchProcess {T R : Type} (items : List T) (processor : T → R)
    (concurrency : Nat) (hc : 0 < concurrency) (delayMs : Nat) : BatchTrace R :=
  match items with
  | [] => ⟨[], [], []⟩
  | x :: xs =>
    let batch := (x :: xs).take concurrency
    let rest := (x :: xs).drop concurrency
    let tail := batchProcess rest processor concurrency hc delayMs
    ⟨batch.map processor ++ tail.results,
     batch.length :: tail.chunkSizes,
     (if rest.isEmpty then [] else [delayMs]) ++ tail.delays⟩
termination_by items.length
decreasing_by simp only [List.length_drop, List.length_cons]; omega

/-! ## Usage fetcher (`fetchApiKeyData`) -/

/-- One answer of the remote endpoint to one request: either the transport
throws (connection error, or a 2xx body that fails to parse as JSON is
folded in via the same `catch`), or an HTTP response with a status and,
when the status is 2xx and the body parses, the parsed JSON. `http status
none` with a 2xx status models `response.json()` throwing. -/
inductive RemoteReply where
  | transportFailure
  | http (status : Nat) (body : Option ApiResponse)

/-- `response.ok` of the Fetch API: status in the range 200..299. -/
def statusOk (status : Nat) : Bool := 200 ≤ status && status < 300

/-- Observable trace of one `fetchApiKeyData` call: the returned
`ApiKeyResult`, the number of HTTP requests issued, and the waits
performed before retries (in milliseconds, in order). -/
structure FetchTrace where
  result : ApiKeyResult
  requests : Nat
  delays : List Nat
deriving DecidableEq

/-- `fetchApiKeyData` from `main.ts`. The remote endpoint is the oracle
`remote`, indexed by the attempt number (`retryCount` of the request). On
a non-ok status: when it is 401 and `retryCount < maxRetries` (2), wait
`(retryCount + 1) * 1000` ms and retry with `retryCount + 1`; otherwise
return an error record `HTTP <status>`. On transport failure (or a body
that fails to parse), return `Failed to fetch`; on a parsed body missing
`usage?.standard`, return `Invalid API response`; otherwise build the
usage record, defaulting absent numerics to 0 and formatting the dates. -/
def fetchApiKeyData (remote : Nat → RemoteReply) (id key : String)
    (retryCount : Nat := 0) : FetchTrace :=
  let maskedKey := maskApiKey key
  let maxRetries := 2
  match remote retryCount with
  | .transportFailure => ⟨.error ⟨id, maskedKey, "Failed to fetch"⟩, 1, []⟩
  | .http status body =>
    if statusOk status = false then
      if h : status = 401 ∧ retryCount < maxRetries then
        let tail := fetchApiKeyData remote id key (retryCount + 1)
        ⟨tail.result, tail.requests + 1, (retryCount + 1) * 1000 :: tail.delays⟩
      else
        ⟨.error ⟨id, maskedKey, "HTTP " ++ toString status⟩, 1, []⟩
    else
      match body with
      | none => ⟨.error ⟨id, maskedKey, "Failed to fetch"⟩, 1, []⟩
      | some apiData =>
        match apiData.usage with
        | none => ⟨.error ⟨id, maskedKey, "Invalid API response"⟩, 1, []⟩
        | some usage =>
          match usage.standard with
          | none => ⟨.error ⟨id, maskedKey, "Invalid API response"⟩, 1, []⟩
          | some standard =>
            ⟨.usage
              ⟨id, maskedKey, formatDate usage.startDate, formatDate usage.endDate,
               standard.orgTotalTokensUsed.getD 0, standard.totalAllowance.getD 0,
               standard.ratioUsed.getD 0⟩, 1, []⟩
termination_by 3 - retryCount
decreasing_by omega

/-! ## Aggregator (`getAggregatedData`) -/

/-- The type guard `isApiUsageData` from `main.ts`: a result with no
`error` field. -/
def isApiUsageData : ApiKeyResult → Bool
  | .usage _ => true
  | .error _ => false

/-- Extracts the usage payload of a result; `results.filterMap usageOf`
embeds the narrowing `results.filter(isApiUsageData) : ApiUsageData[]`. -/
def usageOf : ApiKeyResult → Option ApiUsageData
  | .usage u => some u
  | .error _ => none

/-- The predicate of `results.filter(r => "error" in r)`. -/
def hasErrorField : ApiKeyResult → Bool
  | .usage _ => false
  | .error _ => true

/-- `Math.max(0, r.totalAllowance - r.orgTotalTokensUsed)`, the derived
`remaining` value of a usage record. -/
def remainingOf (r : ApiUsageData) : Int :=
  max 0 (r.totalAllowance - r.orgTotalTokensUsed)

/-- `getAggregatedData` from `main.ts`, as a function of the per-key fetch
outcome (`fetchOne`, the settled value of `fetchApiKeyData(id, key)`), the
listed credential set, and the formatted wall-clock string. Empty set:
the empty response. Otherwise: fetch all keys through `batchProcess` with
concurrency 10 and 100 ms pacing; decorate the usage results with
`remaining`, sort them descending by it (`Array.prototype.sort` is
stable), strip the decoration; fold the totals over the usage results; and
emit the sorted usage records followed by the error records. -/
def getAggregatedData (fetchOne : String → String → ApiKeyResult)
    (keyPairs : List ApiKey) (updateTime : String) : AggregatedResponse :=
  let emptyResponse : AggregatedResponse := ⟨updateTime, 0, ⟨0, 0, 0⟩, []⟩
  if keyPairs.isEmpty then emptyResponse
  else
    let results := (batchProcess keyPairs (fun kp => fetchOne kp.id kp.key)
      10 (by omega) 100).results
    let validResults := results.filterMap usageOf
    let sortedValid :=
      ((validResults.map (fun r => (r, remainingOf r))).mergeSort
        (fun a b => decide (b.2 ≤ a.2))).map Prod.fst
    let totals := validResults.foldl
      (fun acc res =>
        ⟨acc.total_orgTotalTokensUsed + res.orgTotalTokensUsed,
         acc.total_totalAllowance + res.totalAllowance,
         acc.totalRemaining + max 0 (res.totalAllowance - res.orgTotalTokensUsed)⟩)
      emptyResponse.totals
    ⟨updateTime, keyPairs.length, totals,
     sortedValid.map ApiKeyResult.usage ++ results.filter hasErrorField⟩

/-- The `key` field carried by either variant of a fetch result. -/
def ApiKeyResult.keyField : ApiKeyResult → String
  | .usage u => u.key
  | .error e => e.key

/-- A concrete aggregate snapshot used by concrete counterexamples. -/
def sampleSnapshot : AggregatedResponse := ⟨"2024-01-01 00:00:00", 1, ⟨3, 10, 7⟩, []⟩

/-! ## Lemmas about the batch scheduler -/

/-- The batch scheduler returns exactly the per-item results of `processor`,
in input order, across all chunks. -/
theorem batchProcess_results_eq {T R : Type} (items : List T) (processor : T → R)
    (concurrency : Nat) (hc : 0 < concurrency) (delayMs : Nat) :
    (batchProcess items processor concurrency hc delayMs).results = items.map processor := by
  induction items, processor, concurrency, hc, delayMs using batchProcess.induct with
  | case1 processor concurrency hc delayMs => simp [batchProcess]
  | case2 processor concurrency hc delayMs x xs rest ih =>
    have hrd : rest = List.drop concurrency (x :: xs) := rfl
    rw [hrd] at ih
    rw [batchProcess]
    simp only [ih]
    rw [← List.map_append, List.take_append_drop]

/-- The chunk sizes of a `batchProcess` run add up to the input length:
every item is processed exactly once. -/
theorem batchProcess_chunkSizes_sum {T R : Type} (items : List T) (processor : T → R)
    (concurrency : Nat) (hc : 0 < concurrency) (delayMs : Nat) :
    (batchProcess items processor concurrency hc delayMs).chunkSizes.sum = items.length := by
  induction items, processor, concurrency, hc, delayMs using batchProcess.induct with
  | case1 processor concurrency hc delayMs => simp [batchProcess]
  | case2 processor concurrency hc delayMs x xs rest ih =>
    have hrd : rest = List.drop concurrency (x :: xs) := rfl
    rw [hrd] at ih
    rw [batchProcess]
    simp only [List.sum_cons, ih, List.length_take, List.length_drop, List.length_cons]
    omega

/-- A nonempty input produces at least one chunk. -/
theorem batchProcess_chunkSizes_ne_nil {T R : Type} (x : T) (xs : List T) (processor : T → R)
    (concurrency : Nat) (hc : 0 < concurrency) (delayMs : Nat) :
    (batchProcess (x :: xs) processor concurrency hc delayMs).chunkSizes ≠ [] := by
  rw [batchProcess]
  simp

/-- Every chunk is nonempty and no larger than `concurrency`. -/
theorem batchProcess_chunkSizes_bounds {T R : Type} (items : List T) (processor : T → R)
    (concurrency : Nat) (hc : 0 < concurrency) (delayMs : Nat) :
    ∀ s ∈ (batchProcess items processor concurrency hc delayMs).chunkSizes,
      0 < s ∧ s ≤ concurrency := by
  induction items, processor, concurrency, hc, delayMs using batchProcess.induct with
  | case1 processor concurrency hc delayMs => simp [batchProcess]
  | case2 processor concurrency hc delayMs x xs rest ih =>
    have hrd : rest = List.drop concurrency (x :: xs) := rfl
    rw [hrd] at ih
    rw [batchProcess]
    intro s hs
    simp only [List.mem_cons] at hs
    rcases hs with h | h
    · subst h
      simp only [List.length_take, List.length_cons]
      omega
    · exact ih s h

/-- Every chunk except possibly the last has size exactly `concurrency`. -/
theorem batchProcess_chunkSizes_dropLast {T R : Type} (items : List T) (processor : T → R)
    (concurrency : Nat) (hc : 0 < concurrency) (delayMs : Nat) :
    ∀ s ∈ (batchProcess items processor concurrency hc delayMs).chunkSizes.dropLast,
      s = concurrency := by
  induction items, processor, concurrency, hc, delayMs using batchProcess.induct with
  | case1 processor concurrency hc delayMs => simp [batchProcess]
  | case2 processor concurrency hc delayMs x xs rest ih =>
    have hrd : rest = List.drop concurrency (x :: xs) := rfl
    rw [hrd] at ih
    rw [batchProcess]
    intro s hs
    rcases hrest : (x :: xs).drop concurrency with _ | ⟨y, ys⟩
    · rw [hrest] at hs
      simp only [batchProcess] at hs
      simp at hs
    · have hne := batchProcess_chunkSizes_ne_nil y ys processor concurrency hc delayMs
      rw [hrest] at hs ih
      rw [List.dropLast_cons_of_ne_nil hne] at hs
      simp only [List.mem_cons] at hs
      rcases hs with h | h
      · subst h
        have hlt : concurrency < (x :: xs).length := by
          by_contra hge
          push_neg at hge
          have hnil : (x :: xs).drop concurrency = [] := List.drop_eq_nil_of_le hge
          rw [hnil] at hrest; exact List.noConfusion hrest
        simp only [List.length_take, List.length_cons]
        simp only [List.length_cons] at hlt
        omega
      · exact ih s h

/-- The scheduler sleeps `delayMs` exactly once between consecutive chunks
and never after the last chunk: the sleeps are `numChunks - 1` copies of
`delayMs`. -/
theorem batchProcess_delays_eq {T R : Type} (items : List T) (processor : T → R)
    (concurrency : Nat) (hc : 0 < concurrency) (delayMs : Nat) :
    (batchProcess items processor concurrency hc delayMs).delays =
      List.replicate ((batchProcess items processor concurrency hc delayMs).chunkSizes.length - 1)
        delayMs := by
  induction items, processor, concurrency, hc, delayMs using batchProcess.induct with
  | case1 processor concurrency hc delayMs => simp [batchProcess]
  | case2 processor concurrency hc delayMs x xs rest ih =>
    have hrd : rest = List.drop concurrency (x :: xs) := rfl
    rw [hrd] at ih
    rw [batchProcess]
    rcases hrest : (x :: xs).drop concurrency with _ | ⟨y, ys⟩
    · simp [batchProcess]
    · have hne := batchProcess_chunkSizes_ne_nil y ys processor concurrency hc delayMs
      rw [hrest] at ih
      simp only [List.isEmpty_cons, List.length_cons]
      have hlen : 1 ≤ (batchProcess (y :: ys) processor concurrency hc delayMs).chunkSizes.length := by
        rcases h : (batchProcess (y :: ys) processor concurrency hc delayMs).chunkSizes with _ | _
        · exact absurd h hne
        · simp [h]
      rw [ih]
      have hsucc : (batchProcess (y :: ys) processor concurrency hc delayMs).chunkSizes.length + 1 - 1
          = ((batchProcess (y :: ys) processor concurrency hc delayMs).chunkSizes.length - 1) + 1 := by
        omega
      simp only [hsucc, List.replicate_succ]
      simp

/-! ## Claims about the cache lifecycle and the mutation handlers -/

/-- C1, counterexample: after a successful refresh followed by a failed one,
`GET /api/data` answers 200 with the stale snapshot, not 500 with the error
message, because `handleGetData` serves `cachedData` first and `setError`
does not clear it. This refutes the claim that every read returns 500 after
a refresh failure even when a Ready snapshot exists. -/
theorem claim_C1_counterexample :
    (handleGetData (runEvents (ServerState.init, 0)
        [.trigger, .success sampleSnapshot, .trigger, .failure "store unreachable"]).1).status
      = 200 ∧
    (handleGetData (runEvents (ServerState.init, 0)
        [.trigger, .success sampleSnapshot, .trigger, .failure "store unreachable"]).1).body
      = .json sampleSnapshot ∧
    handleGetData (runEvents (ServerState.init, 0)
        [.trigger, .success sampleSnapshot, .trigger, .failure "store unreachable"]).1
      ≠ createErrorResponse "store unreachable" 500 := by
  refine ⟨rfl, rfl, ?_⟩
  decide

/-- C1, amended: a failed refresh records the error, and `GET /api/data`
returns 500 with the message only while no snapshot has ever been cached;
once a snapshot exists, readers keep receiving 200 with the stale snapshot
even after a failed refresh, and a successful refresh serves the new
snapshot. -/
theorem claim_C1_amended (s : ServerState) (msg : String) :
    (s.cachedData = none → handleGetData (s.setError msg) = createErrorResponse msg 500) ∧
    (∀ d, s.cachedData = some d → handleGetData (s.setError msg) = createJsonResponse d) ∧
    (∀ d, handleGetData (s.updateCache d) = createJsonResponse d) := by
  refine ⟨?_, ?_, ?_⟩
  · intro h
    simp [handleGetData, ServerState.setError, h]
  · intro d h
    simp [handleGetData, ServerState.setError, h]
  · intro d
    simp [handleGetData, ServerState.updateCache]

/-- C1, witness: the amended theorem applied at the initial state (500 with
the message) and at a state holding a snapshot (stale 200). -/
theorem claim_C1_witness :
    handleGetData (ServerState.init.setError "store unreachable")
      = createErrorResponse "store unreachable" 500 ∧
    handleGetData ((ServerState.init.updateCache sampleSnapshot).setError "store unreachable")
      = createJsonResponse sampleSnapshot :=
  ⟨(claim_C1_amended ServerState.init "store unreachable").1 rfl,
   (claim_C1_amended (ServerState.init.updateCache sampleSnapshot)
      "store unreachable").2.1 sampleSnapshot rfl⟩

/-- C2: single-flight refresh. A trigger arriving while the state is
updating is a no-op (no fetch pass, no queueing, no cancellation, state
unchanged), and two triggers in quick succession from an idle state start
exactly one fetch pass. -/
theorem claim_C2 (s : ServerState) (fetches : Nat) :
    (s.isUpdating = true → autoRefreshStep (s, fetches) .trigger = (s, fetches)) ∧
    (s.isUpdating = false →
      runEvents (s, fetches) [.trigger, .trigger] = (s.startUpdate, fetches + 1)) := by
  constructor
  · intro h
    simp [autoRefreshStep, h]
  · intro h
    simp [runEvents, autoRefreshStep, h, ServerState.startUpdate]

/-- C2, witness: the single-flight theorem applied at an updating state and
at the initial state. -/
theorem claim_C2_witness :
    autoRefreshStep (ServerState.init.startUpdate, 1) .trigger
      = (ServerState.init.startUpdate, 1) ∧
    runEvents (ServerState.init, 0) [.trigger, .trigger] = (ServerState.init.startUpdate, 1) :=
  ⟨(claim_C2 ServerState.init.startUpdate 1).1 rfl, (claim_C2 ServerState.init 0).2 rfl⟩

/-- C9, counterexample: the reachable state after a successful refresh
followed by a failed one holds a cached snapshot and an error message
simultaneously, so Ready and Failed are not mutually exclusive. -/
theorem claim_C9_counterexample :
    (runEvents (ServerState.init, 0)
        [.trigger, .success sampleSnapshot, .trigger, .failure "store unreachable"]).1.cachedData
      = some sampleSnapshot ∧
    (runEvents (ServerState.init, 0)
        [.trigger, .success sampleSnapshot, .trigger, .failure "store unreachable"]).1.lastError
      = some "store unreachable" :=
  ⟨rfl, rfl⟩

/-- C9, amended: the cache state is the triple (optional snapshot, optional
error, updating flag); a successful refresh stores the snapshot and clears
the error, a failed refresh records the error but keeps the prior snapshot,
and starting an update touches neither, so a snapshot and an error message
can be held at the same time. -/
theorem claim_C9_amended (s : ServerState) (d : AggregatedResponse) (msg : String) :
    (s.updateCache d).cachedData = some d ∧
    (s.updateCache d).lastError = none ∧
    (s.updateCache d).isUpdating = false ∧
    (s.setError msg).cachedData = s.cachedData ∧
    (s.setError msg).lastError = some msg ∧
    (s.setError msg).isUpdating = false ∧
    s.startUpdate.cachedData = s.cachedData ∧
    s.startUpdate.lastError = s.lastError := by
  simp [ServerState.updateCache, ServerState.setError, ServerState.startUpdate]

/-- C3, counterexample: a batch containing the same not-yet-stored secret
twice adds the first occurrence and skips the second (`added = 1`,
`skipped = 1`), refuting the claim that both entries are added with
`skipped = 0`. -/
theorem claim_C3_counterexample :
    (handleBatchImport [] [some "sk-duplicate", some "sk-duplicate"]).added = 1 ∧
    (handleBatchImport [] [some "sk-duplicate", some "sk-duplicate"]).skipped = 1 ∧
    ¬ ((handleBatchImport [] [some "sk-duplicate", some "sk-duplicate"]).added = 2 ∧
       (handleBatchImport [] [some "sk-duplicate", some "sk-duplicate"]).skipped = 0) := by
  refine ⟨rfl, rfl, ?_⟩
  decide

/-- C3, amended: batch-add skips duplicates of secrets present at batch
start and also of secrets added earlier in the same batch, because the
existing-secrets set is extended after each add; for a batch with two
entries of the same new secret, the first is added and the second skipped. -/
theorem claim_C3_amended (existing : List String) (k : String) (hk : k ≠ "")
    (hnew : k ∉ existing) :
    (handleBatchImport existing [some k, some k]).added = 1 ∧
    (handleBatchImport existing [some k, some k]).skipped = 1 ∧
    (handleBatchImport existing [some k, some k]).addedKeys = [k] := by
  simp [handleBatchImport, importStep, hk, hnew]

/-- C3, witness: the amended theorem at a concrete empty store and a
concrete duplicated secret. -/
theorem claim_C3_witness :
    ("sk-duplicate" : String) ≠ "" ∧
    "sk-duplicate" ∉ ([] : List String) ∧
    (handleBatchImport [] [some "sk-duplicate", some "sk-duplicate"]).added = 1 ∧
    (handleBatchImport [] [some "sk-duplicate", some "sk-duplicate"]).skipped = 1 ∧
    (handleBatchImport [] [some "sk-duplicate", some "sk-duplicate"]).addedKeys
      = ["sk-duplicate"] := by
  have h := claim_C3_amended [] "sk-duplicate" (by decide) (by decide)
  exact ⟨by decide, by decide, h.1, h.2.1, h.2.2⟩

/-- A `Promise.all` over per-id deletions wrapped in the swallowing catch
never rejects. -/
theorem sequenceAll_catchSwallow_ok (f : String → Except String Unit) (ids : List String) :
    sequenceAll (ids.map (fun i => catchSwallow (f i))) = .ok () := by
  induction ids with
  | nil => rfl
  | cons a tl ih =>
    have hca : catchSwallow (f a) = .ok () := by
      cases f a <;> rfl
    simp only [List.map_cons, hca, sequenceAll]
    exact ih

/-- C10: for a request body carrying a non-empty `ids` array, batch-delete
answers 200 with `deleted` equal to the number of ids, for every possible
per-id deletion outcome: failures are swallowed and never change the
response. -/
theorem claim_C10 (deleteOutcome : String → Except String Unit)
    (req : BatchDeleteRequest) (ids : List String)
    (hids : req.ids = some ids) (hne : ids ≠ []) :
    handleBatchDeleteKeys deleteOutcome (some req)
      = ⟨200, .batchDeleteResult true ids.length⟩ := by
  have hlen : ¬ ids.length = 0 := by
    cases ids with
    | nil => exact absurd rfl hne
    | cons a tl => simp
  obtain ⟨oids⟩ := req
  dsimp only at hids
  subst hids
  unfold handleBatchDeleteKeys
  dsimp only
  rw [if_neg hlen, sequenceAll_catchSwallow_ok]

/-- C10, witness: the theorem at a two-id request whose every deletion
fails; the response is still 200 with `deleted = 2`. -/
theorem claim_C10_witness :
    (⟨some ["id-1", "id-2"]⟩ : BatchDeleteRequest).ids = some ["id-1", "id-2"] ∧
    (["id-1", "id-2"] : List String) ≠ [] ∧
    handleBatchDeleteKeys (fun _ => .error "kv unreachable") (some ⟨some ["id-1", "id-2"]⟩)
      = ⟨200, .batchDeleteResult true 2⟩ :=
  ⟨rfl, by decide,
   claim_C10 (fun _ => .error "kv unreachable") ⟨some ["id-1", "id-2"]⟩
     ["id-1", "id-2"] rfl (by decide)⟩

/-! ## Claims about the usage fetcher -/

/-- Every branch of the fetcher carries the masked key, never the raw
secret, in the `key` field of its result. -/
theorem fetchApiKeyData_keyField (remote : Nat → RemoteReply) (id key : String)
    (retryCount : Nat) :
    (fetchApiKeyData remote id key retryCount).result.keyField = maskApiKey key := by
  induction retryCount using fetchApiKeyData.induct remote id key with
  | case1 x h =>
    rw [fetchApiKeyData]
    simp [h, ApiKeyResult.keyField]
  | case2 x mr status body h hok hcond ih =>
    rw [fetchApiKeyData]
    simp only [h, hok, Bool.false_eq_true, if_true, dif_pos hcond, eq_self_iff_true]
    exact ih
  | case3 x mr status body h hok hcond =>
    rw [fetchApiKeyData]
    simp [h, hok, hcond, ApiKeyResult.keyField]
  | case4 x status hok h =>
    rw [fetchApiKeyData]
    simp [h, hok, ApiKeyResult.keyField]
  | case5 x status hok apiData husage h =>
    rw [fetchApiKeyData]
    simp [h, hok, husage, ApiKeyResult.keyField]
  | case6 x status hok apiData usage husage hstd h =>
    rw [fetchApiKeyData]
    simp [h, hok, husage, hstd, ApiKeyResult.keyField]
  | case7 x status hok apiData usage husage standard hstd h =>
    rw [fetchApiKeyData]
    simp [h, hok, husage, hstd, ApiKeyResult.keyField]

/-- C8: every fetch result (success or error) carries exactly the masked
form of the credential in its `key` field, and the mask behaves as
specified on the two reference secrets: length 12 keeps both ends, length 5
keeps only the first four characters. -/
theorem claim_C8 (remote : Nat → RemoteReply) (id key : String) (retryCount : Nat) :
    (fetchApiKeyData remote id key retryCount).result.keyField = maskApiKey key ∧
    maskApiKey "abcdefghijkl" = "abcd...ijkl" ∧
    maskApiKey "abcde" = "abcd..." :=
  ⟨fetchApiKeyData_keyField remote id key retryCount, by decide, by decide⟩


/-- C4: a credential answering HTTP 401 on every attempt is retried exactly
twice with waits of 1000 ms and 2000 ms (3 requests total) and ends in an
error record carrying `HTTP 401`; a transport failure and any other non-2xx
status produce an immediate error record with a single request, and a 2xx
response is likewise never retried. -/
theorem claim_C4 (remote : Nat → RemoteReply) (id key : String) :
    ((∀ n, n < 3 → ∃ body, remote n = .http 401 body) →
      (fetchApiKeyData remote id key 0).result
          = .error ⟨id, maskApiKey key, "HTTP 401"⟩ ∧
      (fetchApiKeyData remote id key 0).requests = 3 ∧
      (fetchApiKeyData remote id key 0).delays = [1000, 2000]) ∧
    (∀ retryCount, remote retryCount = .transportFailure →
      fetchApiKeyData remote id key retryCount
        = ⟨.error ⟨id, maskApiKey key, "Failed to fetch"⟩, 1, []⟩) ∧
    (∀ retryCount status body, remote retryCount = .http status body →
      statusOk status = false → status ≠ 401 →
      fetchApiKeyData remote id key retryCount
        = ⟨.error ⟨id, maskApiKey key, "HTTP " ++ toString status⟩, 1, []⟩) ∧
    (∀ retryCount status body, remote retryCount = .http status body →
      statusOk status = true →
      (fetchApiKeyData remote id key retryCount).requests = 1) := by
  refine ⟨?_, ?_, ?_, ?_⟩
  · intro hall
    obtain ⟨b0, h0⟩ := hall 0 (by omega)
    obtain ⟨b1, h1⟩ := hall 1 (by omega)
    obtain ⟨b2, h2⟩ := hall 2 (by omega)
    have e2 : fetchApiKeyData remote id key 2
        = ⟨.error ⟨id, maskApiKey key, "HTTP 401"⟩, 1, []⟩ := by
      rw [fetchApiKeyData, h2]
      norm_num [statusOk]
      decide
    have e1 : fetchApiKeyData remote id key 1
        = ⟨.error ⟨id, maskApiKey key, "HTTP 401"⟩, 2, [2000]⟩ := by
      rw [fetchApiKeyData, h1]
      norm_num [statusOk, e2]
    have e0 : fetchApiKeyData remote id key 0
        = ⟨.error ⟨id, maskApiKey key, "HTTP 401"⟩, 3, [1000, 2000]⟩ := by
      rw [fetchApiKeyData, h0]
      norm_num [statusOk, e1]
    rw [e0]
    exact ⟨rfl, rfl, rfl⟩
  · intro retryCount h
    rw [fetchApiKeyData, h]
  · intro retryCount status body h hok h401
    rw [fetchApiKeyData, h]
    simp [hok, h401]
  · intro retryCount status body h hok
    rw [fetchApiKeyData, h]
    rcases body with _ | apiData
    · simp [hok]
    · rcases husage : apiData.usage with _ | usage
      · simp [hok, husage]
      · rcases hstd : usage.standard with _ | standard <;> simp [hok, husage, hstd]

/-- C4, witness: the retry clause applied to the oracle that always answers
401. -/
theorem claim_C4_witness :
    (fetchApiKeyData (fun _ => .http 401 none) "key-1" "sk-abcdefghijkl" 0).result
        = .error ⟨"key-1", maskApiKey "sk-abcdefghijkl", "HTTP 401"⟩ ∧
    (fetchApiKeyData (fun _ => .http 401 none) "key-1" "sk-abcdefghijkl" 0).requests = 3 ∧
    (fetchApiKeyData (fun _ => .http 401 none) "key-1" "sk-abcdefghijkl" 0).delays
        = [1000, 2000] :=
  (claim_C4 (fun _ => .http 401 none) "key-1" "sk-abcdefghijkl").1 (fun _ _ => ⟨none, rfl⟩)

/-! ## Claims about the aggregator -/

/-- The totals fold of `getAggregatedData` computes the componentwise sums
over the usage records, shifted by the accumulator. -/
theorem totals_foldl (l : List ApiUsageData) (acc : UsageTotals) :
    l.foldl (fun acc res =>
        ⟨acc.total_orgTotalTokensUsed + res.orgTotalTokensUsed,
         acc.total_totalAllowance + res.totalAllowance,
         acc.totalRemaining + max 0 (res.totalAllowance - res.orgTotalTokensUsed)⟩) acc =
      ⟨acc.total_orgTotalTokensUsed + (l.map (fun r => r.orgTotalTokensUsed)).sum,
       acc.total_totalAllowance + (l.map (fun r => r.totalAllowance)).sum,
       acc.totalRemaining + (l.map (fun r => remainingOf r)).sum⟩ := by
  induction l generalizing acc with
  | nil => simp
  | cons r tl ih =>
    simp only [List.foldl_cons, List.map_cons, List.sum_cons, ih, remainingOf,
      UsageTotals.mk.injEq]
    refine ⟨by ring, by ring, by ring⟩

/-- Each fetch result is either a usage record or an error record, so the
two partitions account for the full length. -/
theorem length_valid_add_errors (results : List ApiKeyResult) :
    (results.filterMap usageOf).length + (results.filter hasErrorField).length
      = results.length := by
  induction results with
  | nil => rfl
  | cons r tl ih =>
    cases r with
    | usage u =>
      simp only [List.filterMap_cons, List.filter_cons, usageOf, hasErrorField,
        List.length_cons]
      simp only [Bool.false_eq_true, if_false]
      omega
    | error e =>
      simp only [List.filterMap_cons, List.filter_cons, usageOf, hasErrorField,
        List.length_cons]
      simp only [if_true]
      simp only [List.length_cons]
      omega

/-- Closed form of `getAggregatedData`: the totals are sums over the usage
records and the data is the sorted usage records followed by the error
records (the empty-input branch coincides with this form). -/
theorem getAggregatedData_eq (fetchOne : String → String → ApiKeyResult)
    (keyPairs : List ApiKey) (updateTime : String) :
    getAggregatedData fetchOne keyPairs updateTime =
      ⟨updateTime, keyPairs.length,
       ⟨(((keyPairs.map (fun kp => fetchOne kp.id kp.key)).filterMap usageOf).map
           (fun r => r.orgTotalTokensUsed)).sum,
        (((keyPairs.map (fun kp => fetchOne kp.id kp.key)).filterMap usageOf).map
           (fun r => r.totalAllowance)).sum,
        (((keyPairs.map (fun kp => fetchOne kp.id kp.key)).filterMap usageOf).map
           (fun r => remainingOf r)).sum⟩,
       (((((keyPairs.map (fun kp => fetchOne kp.id kp.key)).filterMap usageOf).map
             (fun r => (r, remainingOf r))).mergeSort
           (fun a b => decide (b.2 ≤ a.2))).map Prod.fst).map ApiKeyResult.usage
         ++ (keyPairs.map (fun kp => fetchOne kp.id kp.key)).filter hasErrorField⟩ := by
  rw [getAggregatedData]
  rcases hk : keyPairs.isEmpty with _ | _
  · rw [if_neg (by simp [hk])]
    simp only [batchProcess_results_eq, totals_foldl]
    simp [remainingOf]
  · have hnil : keyPairs = [] := List.isEmpty_iff.mp hk
    subst hnil
    simp [List.mergeSort_nil]

/-- C5: the aggregate totals are the exact sums of `used`, `allowance` and
`max 0 (allowance - used)` over the usage records only (error records
contribute nothing), while `total_count` and the length of the records
sequence both equal the credential count, errored ones included. -/
theorem claim_C5 (fetchOne : String → String → ApiKeyResult) (keyPairs : List ApiKey)
    (updateTime : String) :
    (getAggregatedData fetchOne keyPairs updateTime).total_count = keyPairs.length ∧
    (getAggregatedData fetchOne keyPairs updateTime).data.length = keyPairs.length ∧
    (getAggregatedData fetchOne keyPairs updateTime).totals.total_orgTotalTokensUsed
      = (((keyPairs.map (fun kp => fetchOne kp.id kp.key)).filterMap usageOf).map
          (fun r => r.orgTotalTokensUsed)).sum ∧
    (getAggregatedData fetchOne keyPairs updateTime).totals.total_totalAllowance
      = (((keyPairs.map (fun kp => fetchOne kp.id kp.key)).filterMap usageOf).map
          (fun r => r.totalAllowance)).sum ∧
    (getAggregatedData fetchOne keyPairs updateTime).totals.totalRemaining
      = (((keyPairs.map (fun kp => fetchOne kp.id kp.key)).filterMap usageOf).map
          (fun r => remainingOf r)).sum := by
  rw [getAggregatedData_eq]
  refine ⟨rfl, ?_, rfl, rfl, rfl⟩
  simp only [List.length_append, List.length_map]
  rw [List.Perm.length_eq (List.mergeSort_perm _ _)]
  simp only [List.length_map]
  rw [length_valid_add_errors]
  simp

/-- C6: the records sequence decomposes as the usage records followed by
exactly the error records; the usage part is sorted descending by
`remaining`, and it is a stable rearrangement of the fetched usage records:
for every value `v`, the records with `remaining = v` appear in their
original encounter order. -/
theorem claim_C6 (fetchOne : String → String → ApiKeyResult) (keyPairs : List ApiKey)
    (updateTime : String) :
    ∃ (us : List ApiUsageData) (es : List ApiKeyResult),
      (getAggregatedData fetchOne keyPairs updateTime).data
          = us.map ApiKeyResult.usage ++ es ∧
      es = (keyPairs.map (fun kp => fetchOne kp.id kp.key)).filter hasErrorField ∧
      (∀ r ∈ es, hasErrorField r = true) ∧
      us.Pairwise (fun a b => remainingOf b ≤ remainingOf a) ∧
      (∀ v : Int, us.filter (fun r => decide (remainingOf r = v))
        = ((keyPairs.map (fun kp => fetchOne kp.id kp.key)).filterMap usageOf).filter
            (fun r => decide (remainingOf r = v))) := by
  rw [getAggregatedData_eq]
  refine ⟨((((keyPairs.map (fun kp => fetchOne kp.id kp.key)).filterMap usageOf).map
      (fun r => (r, remainingOf r))).mergeSort
        (fun a b => decide (b.2 ≤ a.2))).map Prod.fst,
    (keyPairs.map (fun kp => fetchOne kp.id kp.key)).filter hasErrorField,
    rfl, rfl, ?_, ?_, ?_⟩
  · intro r hr
    exact List.of_mem_filter hr
  · have htrans : ∀ (a b c : ApiUsageData × Int),
        (fun a b => decide (b.2 ≤ a.2)) a b = true →
        (fun a b => decide (b.2 ≤ a.2)) b c = true →
        (fun a b => decide (b.2 ≤ a.2)) a c = true := by
      intro a b c hab hbc
      simp only [decide_eq_true_eq] at hab hbc ⊢
      exact le_trans hbc hab
    have htotal : ∀ (a b : ApiUsageData × Int),
        ((fun a b => decide (b.2 ≤ a.2)) a b || (fun a b => decide (b.2 ≤ a.2)) b a) = true := by
      intro a b
      simp only [Bool.or_eq_true, decide_eq_true_eq]
      exact le_total b.2 a.2
    have hmem : ∀ p ∈ (((keyPairs.map (fun kp => fetchOne kp.id kp.key)).filterMap
          usageOf).map (fun r => (r, remainingOf r))).mergeSort
          (fun a b => decide (b.2 ≤ a.2)), p.2 = remainingOf p.1 := by
      intro p hp
      have hp2 := (List.mergeSort_perm _ _).mem_iff.mp hp
      obtain ⟨r, _, rfl⟩ := List.mem_map.mp hp2
      rfl
    have hp := List.sorted_mergeSort htrans htotal
      (((keyPairs.map (fun kp => fetchOne kp.id kp.key)).filterMap usageOf).map
        (fun r => (r, remainingOf r)))
    refine List.pairwise_map.mpr (hp.imp_of_mem ?_)
    intro a b ha hb hr
    have h2 := decide_eq_true_eq.mp hr
    rw [hmem a ha, hmem b hb] at h2
    exact h2
  · intro v
    have htrans : ∀ (a b c : ApiUsageData × Int),
        (fun a b => decide (b.2 ≤ a.2)) a b = true →
        (fun a b => decide (b.2 ≤ a.2)) b c = true →
        (fun a b => decide (b.2 ≤ a.2)) a c = true := by
      intro a b c hab hbc
      simp only [decide_eq_true_eq] at hab hbc ⊢
      exact le_trans hbc hab
    have htotal : ∀ (a b : ApiUsageData × Int),
        ((fun a b => decide (b.2 ≤ a.2)) a b || (fun a b => decide (b.2 ≤ a.2)) b a) = true := by
      intro a b
      simp only [Bool.or_eq_true, decide_eq_true_eq]
      exact le_total b.2 a.2
    have hmem : ∀ p ∈ (((keyPairs.map (fun kp => fetchOne kp.id kp.key)).filterMap
          usageOf).map (fun r => (r, remainingOf r))).mergeSort
          (fun a b => decide (b.2 ≤ a.2)), p.2 = remainingOf p.1 := by
      intro p hp
      have hp2 := (List.mergeSort_perm _ _).mem_iff.mp hp
      obtain ⟨r, _, rfl⟩ := List.mem_map.mp hp2
      rfl
    rw [List.filter_map]
    have hstepB :
        List.filter ((fun r => decide (remainingOf r = v)) ∘ Prod.fst)
          ((((keyPairs.map (fun kp => fetchOne kp.id kp.key)).filterMap usageOf).map
            (fun r => (r, remainingOf r))).mergeSort (fun a b => decide (b.2 ≤ a.2)))
        = List.filter (fun p => decide (p.2 = v))
          ((((keyPairs.map (fun kp => fetchOne kp.id kp.key)).filterMap usageOf).map
            (fun r => (r, remainingOf r))).mergeSort (fun a b => decide (b.2 ≤ a.2))) := by
      refine List.filter_congr ?_
      intro p hp
      simp only [Function.comp_apply, hmem p hp]
    rw [hstepB]
    have hpw : ((((keyPairs.map (fun kp => fetchOne kp.id kp.key)).filterMap usageOf).map
          (fun r => (r, remainingOf r))).filter (fun p => decide (p.2 = v))).Pairwise
          (fun a b => (fun a b => decide (b.2 ≤ a.2)) a b = true) := by
      refine List.pairwise_of_forall_mem_list ?_
      intro a ha b hb
      have ha2 := (List.mem_filter.mp ha).2
      have hb2 := (List.mem_filter.mp hb).2
      simp only [decide_eq_true_eq] at ha2 hb2
      simp only [decide_eq_true_eq, ha2, hb2, le_refl]
    have hsub : List.Sublist
        ((((keyPairs.map (fun kp => fetchOne kp.id kp.key)).filterMap usageOf).map
          (fun r => (r, remainingOf r))).filter (fun p => decide (p.2 = v)))
        ((((keyPairs.map (fun kp => fetchOne kp.id kp.key)).filterMap usageOf).map
          (fun r => (r, remainingOf r))).mergeSort (fun a b => decide (b.2 ≤ a.2))) :=
      List.sublist_mergeSort htrans htotal hpw (List.filter_sublist _)
    have hself : ((((keyPairs.map (fun kp => fetchOne kp.id kp.key)).filterMap usageOf).map
          (fun r => (r, remainingOf r))).filter (fun p => decide (p.2 = v))).filter
          (fun p => decide (p.2 = v))
        = (((keyPairs.map (fun kp => fetchOne kp.id kp.key)).filterMap usageOf).map
          (fun r => (r, remainingOf r))).filter (fun p => decide (p.2 = v)) := by
      refine List.filter_eq_self.mpr ?_
      intro p hp
      exact (List.mem_filter.mp hp).2
    have hsub2 : List.Sublist
        ((((keyPairs.map (fun kp => fetchOne kp.id kp.key)).filterMap usageOf).map
          (fun r => (r, remainingOf r))).filter (fun p => decide (p.2 = v)))
        (((((keyPairs.map (fun kp => fetchOne kp.id kp.key)).filterMap usageOf).map
          (fun r => (r, remainingOf r))).mergeSort (fun a b => decide (b.2 ≤ a.2))).filter
          (fun p => decide (p.2 = v))) := by
      rw [← hself]
      exact List.Sublist.filter _ hsub
    have hperm : (((((keyPairs.map (fun kp => fetchOne kp.id kp.key)).filterMap usageOf).map
          (fun r => (r, remainingOf r))).mergeSort (fun a b => decide (b.2 ≤ a.2))).filter
          (fun p => decide (p.2 = v))).Perm
        ((((keyPairs.map (fun kp => fetchOne kp.id kp.key)).filterMap usageOf).map
          (fun r => (r, remainingOf r))).filter (fun p => decide (p.2 = v))) :=
      (List.mergeSort_perm _ _).filter _
    have hstepC := (hsub2.eq_of_length hperm.length_eq.symm).symm
    rw [hstepC]
    rw [List.filter_map (fun r => (r, remainingOf r))]
    rw [List.map_map]
    rw [show (Prod.fst ∘ fun r : ApiUsageData => (r, remainingOf r)) = fun r => r from rfl]
    rw [List.map_id']
    rfl

/-! ## Claim about the batch scheduler -/

/-- C7: the batch scheduler partitions its input into consecutive chunks of
size `concurrency` (the last possibly smaller), sleeps the inter-batch
delay exactly between consecutive chunks and never after the last, and
returns per-item results in input order; with concurrency 2 and 5 items
there are exactly 3 chunks of sizes [2, 2, 1] and exactly 2 delays. -/
theorem claim_C7 {T R : Type} (items : List T) (processor : T → R)
    (concurrency : Nat) (hc : 0 < concurrency) (delayMs : Nat) :
    (batchProcess items processor concurrency hc delayMs).results = items.map processor ∧
    (batchProcess items processor concurrency hc delayMs).chunkSizes.sum = items.length ∧
    (∀ s ∈ (batchProcess items processor concurrency hc delayMs).chunkSizes.dropLast,
      s = concurrency) ∧
    (∀ s ∈ (batchProcess items processor concurrency hc delayMs).chunkSizes,
      0 < s ∧ s ≤ concurrency) ∧
    (batchProcess items processor concurrency hc delayMs).delays =
      List.replicate ((batchProcess items processor concurrency hc delayMs).chunkSizes.length - 1)
        delayMs ∧
    (items.length = 5 → concurrency = 2 →
      (batchProcess items processor concurrency hc delayMs).chunkSizes = [2, 2, 1] ∧
      (batchProcess items processor concurrency hc delayMs).delays = [delayMs, delayMs]) := by
  refine ⟨batchProcess_results_eq items processor concurrency hc delayMs,
    batchProcess_chunkSizes_sum items processor concurrency hc delayMs,
    batchProcess_chunkSizes_dropLast items processor concurrency hc delayMs,
    batchProcess_chunkSizes_bounds items processor concurrency hc delayMs,
    batchProcess_delays_eq items processor concurrency hc delayMs, ?_⟩
  intro h5 h2
  subst h2
  obtain ⟨a, b, c3, d, e, rfl⟩ : ∃ a b c3 d e, items = [a, b, c3, d, e] := by
    rcases items with _ | ⟨a, _ | ⟨b, _ | ⟨c3, _ | ⟨d, _ | ⟨e, _ | ⟨f, tl⟩⟩⟩⟩⟩⟩ <;>
        simp only [List.length_nil, List.length_cons] at h5 <;> try omega
    exact ⟨a, b, c3, d, e, rfl⟩
  constructor <;> simp [batchProcess]

/-- C7, witness: a concrete run with concurrency 2 over five items. -/
theorem claim_C7_witness :
    (batchProcess [10, 20, 30, 40, 50] (fun n => n + 1) 2 (by omega) 100).results
        = [11, 21, 31, 41, 51] ∧
    (batchProcess [10, 20, 30, 40, 50] (fun n => n + 1) 2 (by omega) 100).chunkSizes = [2, 2, 1] ∧
    (batchProcess [10, 20, 30, 40, 50] (fun n => n + 1) 2 (by omega) 100).delays = [100, 100] := by
  have h := claim_C7 [10, 20, 30, 40, 50] (fun n => n + 1) 2 (by omega) 100
  refine ⟨?_, (h.2.2.2.2.2 (by decide) rfl).1, (h.2.2.2.2.2 (by decide) rfl).2⟩
  rw [h.1]; decide

end DroidApikey
